/-
  Verification development for the document-intelligence pipeline of the
  ai-financy-analytics repository (backend/app/services/document_intelligence.py).

  The Python code is shallowly embedded: Python floats are modelled as rationals
  (ℚ), `round(x, 2)` as `round2`, Python dicts holding fixed keys as structures,
  and the regex-based helpers that no claim inspects internally
  (`_find_amount_after_keywords`, the per-line salary-row regex loop, and the
  month-key regex extractors) as explicit function parameters collected in an
  `Oracles` record, so every theorem quantifies over all of their possible
  behaviours.  All other helpers (`classify_document_type`, `_is_pan_match`,
  `_find_credit_score`, `_estimate_statement_months` and its two callees,
  `_build_salary_breakdown`, the dedup step of
  `_extract_salary_rows_from_labeled_tables`, `extract_structured_data`,
  `detect_pending_forms`, `predict_credit_queries`, `_ocr_image_bytes`,
  `_ocr_pdf_bytes`) are translated line by line from the source.
-/
import Mathlib

set_option maxHeartbeats 1000000

/-! ## Python string primitives (ASCII fragment, as used by the corpus texts) -/

/-- Python `\s` whitespace class, ASCII fragment (space, tab, LF, CR, VT, FF). -/
def isPyWs (c : Char) : Bool :=
  c = ' ' || c = '\t' || c = '\n' || c = '\r' || c = '\x0b' || c = '\x0c'

/-- Python `str.strip()` (ASCII whitespace). -/
def pyStrip (s : String) : String :=
  ⟨(s.toList.dropWhile isPyWs).reverse.dropWhile isPyWs |>.reverse⟩

/-- Python `str.lower()` (ASCII fragment). -/
def strLower (s : String) : String := ⟨s.toList.map Char.toLower⟩

/-- Python `str.upper()` (ASCII fragment). -/
def strUpper (s : String) : String := ⟨s.toList.map Char.toUpper⟩

def isPrefixChars : List Char → List Char → Bool
  | [], _ => true
  | _ :: _, [] => false
  | a :: as, b :: bs => a = b && isPrefixChars as bs

def infixChars (needle : List Char) : List Char → Bool
  | [] => needle.isEmpty
  | c :: rest => isPrefixChars needle (c :: rest) || infixChars needle rest

/-- Python substring containment `needle in hay`. -/
def strContains (hay needle : String) : Bool :=
  infixChars needle.toList hay.toList

/-- Python `str.splitlines()` restricted to the line breaks that occur in this
pipeline's corpora (`\n`, `\r`, `\r\n`, `\x0b`, `\x0c`).  `"".splitlines() = []`,
and a trailing line break does not produce a trailing empty line. -/
def pySplitlinesAux : List Char → List Char → List (List Char)
  | acc, [] => [acc.reverse]
  | acc, '\r' :: '\n' :: rest =>
    acc.reverse :: (if rest.isEmpty then [] else pySplitlinesAux [] rest)
  | acc, '\n' :: rest =>
    acc.reverse :: (if rest.isEmpty then [] else pySplitlinesAux [] rest)
  | acc, '\r' :: rest =>
    acc.reverse :: (if rest.isEmpty then [] else pySplitlinesAux [] rest)
  | acc, '\x0b' :: rest =>
    acc.reverse :: (if rest.isEmpty then [] else pySplitlinesAux [] rest)
  | acc, '\x0c' :: rest =>
    acc.reverse :: (if rest.isEmpty then [] else pySplitlinesAux [] rest)
  | acc, c :: rest => pySplitlinesAux (c :: acc) rest

def pySplitlines (s : String) : List String :=
  if s.toList.isEmpty then [] else (pySplitlinesAux [] s.toList).map List.asString

/-- Python `round(q, 2)`: round to two decimal places (ties modelled half-up). -/
def round2 (q : ℚ) : ℚ := (round (q * 100) : ℤ) / 100

/-- Python `f"{n:02d}"` for the month numbers (1–12) that reach it. -/
def pad2 (n : ℤ) : String :=
  if 0 ≤ n ∧ n < 10 then "0" ++ toString n else toString n

/-! ## Data model (app/models/schemas.py rows used by the pipeline) -/

structure SalaryRow where
  month : String
  employer : String
  amount : ℚ
  confidence : ℚ
  deriving DecidableEq, Repr

structure ObligationRow where
  lender : String
  obligation_type : String
  monthly_amount : ℚ
  outstanding_amount : ℚ
  deriving DecidableEq, Repr

structure PendingFormItem where
  form_code : String
  form_name : String
  reason : String
  deriving DecidableEq, Repr

structure PredictedQuery where
  query : String
  confidence : ℚ
  rationale : String
  deriving DecidableEq, Repr

/-- The result of `_read_text_from_document` for one uploaded document,
together with its filename: the per-document state accumulated by the loop at
the top of `extract_structured_data` (lines 319–331). -/
structure DocRead where
  filename : String
  text : String
  ocr_used : Bool
  ocr_confidence : ℚ
  deriving DecidableEq, Repr

/-- The `extracted` dict built at lines 409–423 of the source. -/
structure Extracted where
  monthly_salary : ℚ
  latest_monthly_salary : ℚ
  average_monthly_salary : ℚ
  monthly_obligations : ℚ
  annual_income : ℚ
  emi_ratio_percent : ℚ
  credit_score : ℕ
  bank_statement_months : ℕ
  documents_uploaded : List String
  document_types_detected : List String
  ocr_average_confidence : ℚ
  name_match_score : ℚ
  salary_extraction_source : String
  deriving DecidableEq, Repr

/-- The `processing` dict built at lines 424–429 of the source. -/
structure Processing where
  ocr_used : Bool
  ocr_confidence : ℚ
  text_length : ℕ
  low_quality : Bool
  deriving DecidableEq, Repr

/-- The 4-tuple returned by `extract_structured_data`. -/
structure ExtractOutput where
  extracted : Extracted
  salary_breakdown : List SalaryRow
  obligations : List ObligationRow
  processing : Processing
  deriving DecidableEq, Repr

/-! ## Document classifier -/

/-- Python `\w` word characters (ASCII fragment). -/
def isWordChar (c : Char) : Bool := c.isAlphanum || c = '_'

def isUpperLetter (c : Char) : Bool := 65 ≤ c.toNat ∧ c.toNat ≤ 90

def isDigitChar (c : Char) : Bool := 48 ≤ c.toNat ∧ c.toNat ≤ 57

/-- One attempt of the PAN pattern `[A-Z]{5}[0-9]{4}[A-Z]\b` at the head of
`cs` (the leading `\b` is checked by the caller). -/
def panHere : List Char → Bool
  | a :: b :: c :: d :: e :: f :: g :: h :: i :: j :: rest =>
    isUpperLetter a && isUpperLetter b && isUpperLetter c && isUpperLetter d &&
    isUpperLetter e && isDigitChar f && isDigitChar g && isDigitChar h &&
    isDigitChar i && isUpperLetter j &&
    (match rest with | [] => true | k :: _ => !isWordChar k)
  | _ => false

/-- Scan for `\b[A-Z]{5}[0-9]{4}[A-Z]\b`; `prev` is the character before the
current position (none at the start of the text). -/
def panScan : Option Char → List Char → Bool
  | _, [] => false
  | prev, c :: rest =>
    ((match prev with | none => true | some p => !isWordChar p) &&
      panHere (c :: rest)) ||
    panScan (some c) rest

/-- Source `_is_pan_match` (line 24): PAN-style pattern over the uppercased text. -/
def is_pan_match (text : String) : Bool := panScan none (strUpper text).toList

/-- Source `classify_document_type` (lines 28–49). -/
def classify_document_type (filename : String) (extracted_text : String) : String :=
  let lower := strLower filename
  let text_lower := strLower extracted_text
  if strContains lower "pan" || strContains lower "permanent account number" ||
     strContains text_lower "pan" ||
     strContains text_lower "permanent account number" ||
     is_pan_match extracted_text then "pan_card"
  else if strContains lower "bank" || strContains lower "statement" then "bank_statement"
  else if strContains lower "salary" || strContains lower "payslip" then "salary_slip"
  else if strContains lower "aadhaar" || strContains lower "aadhar" ||
          strContains lower "id" then "id_proof"
  else if strContains lower "itr" then "itr"
  else "other"

/-! ## Credit score extraction (`_find_credit_score`, lines 160–162)

The regex `(?is)(?:credit|cibil)\s*score.{0,30}?([3-9][0-9]{2})` is translated
as a scanner: `re.search` tries each start position left to right; at a
position, the literal `credit`/`cibil` is matched case-insensitively, then the
greedy `\s*` (only the maximal whitespace run can be followed by the literal
`score`, whose first character is not whitespace), then the lazy `.{0,30}?`
tries 0,1,…,30 skipped characters before the three-digit group.  The character
classes `[3-9]` and `[0-9]` are exactly the code points 51–57 and 48–57. -/

/-- Case-insensitive literal match; returns the remaining characters. -/
def matchLitCI : List Char → List Char → Option (List Char)
  | cs, [] => some cs
  | [], _ :: _ => none
  | c :: cs, d :: ds => if c.toLower = d then matchLitCI cs ds else none

/-- The capture group `([3-9][0-9]{2})` at the head of `cs`, as a number. -/
def threeDigitHere : List Char → Option ℕ
  | a :: b :: c :: _ =>
    if 51 ≤ a.toNat ∧ a.toNat ≤ 57 ∧ 48 ≤ b.toNat ∧ b.toNat ≤ 57 ∧
       48 ≤ c.toNat ∧ c.toNat ≤ 57 then
      some (100 * (a.toNat - 48) + 10 * (b.toNat - 48) + (c.toNat - 48))
    else none
  | _ => none

/-- The lazy `.{0,30}?([3-9][0-9]{2})`: the first offset `≤ budget` at which a
three-digit group matches (with no budget or no characters left, only the
current position is tried). -/
def lazyThreeDigit : ℕ → List Char → Option ℕ
  | 0, cs => threeDigitHere cs
  | _ + 1, [] => threeDigitHere []
  | b + 1, c :: rest =>
    match threeDigitHere (c :: rest) with
    | some n => some n
    | none => lazyThreeDigit b rest

/-- One attempt of the whole pattern at the current position. -/
def creditScoreHere (cs : List Char) : Option ℕ :=
  match (matchLitCI cs "credit".toList).orElse (fun _ => matchLitCI cs "cibil".toList) with
  | none => none
  | some r1 =>
    match matchLitCI (r1.dropWhile isPyWs) "score".toList with
    | none => none
    | some r2 => lazyThreeDigit 30 r2

def creditScoreScan : List Char → Option ℕ
  | [] => none
  | c :: rest =>
    match creditScoreHere (c :: rest) with
    | some n => some n
    | none => creditScoreScan rest

/-- Source `_find_credit_score` (lines 160–162). -/
def find_credit_score (text : String) : Option ℕ :=
  creditScoreScan text.toList

/-! ## Statement month estimation (lines 196–235)

The month-key regex extractors `_extract_month_keys_from_dates` and
`_extract_month_keys_from_named_months` are kept abstract (they are the
`dateKeys`/`namedKeys` oracles); the callers are translated exactly.  The
`amount_like` regex `(?i)(?:₹|rs\.?|inr)?\s*[0-9][0-9,]*(?:\.\d{1,2})?` has an
optional prefix, a `\s*` that can match the empty string, a mandatory `[0-9]`,
and optional trailing parts, so `amount_like.search(line)` succeeds exactly
when the line contains a decimal digit. -/

def hasDigit (s : String) : Bool := s.toList.any isDigitChar

/-- Source `_transaction_statement_months` (lines 196–212). -/
def transaction_statement_months (dateKeys namedKeys : String → Finset String)
    (text : String) : Finset String :=
  let lines := ((pySplitlines text).map pyStrip).filter (fun l => l ≠ "")
  lines.foldl
    (fun acc line =>
      if hasDigit line then
        let keys := dateKeys line
        if keys ≠ ∅ then acc ∪ keys
        else
          let keys2 := namedKeys line
          if keys2 ≠ ∅ then acc ∪ keys2 else acc
      else acc)
    ∅

/-- The `(?is)bank\s*statement\s*summary(.{0,2500})` search of
`_summary_statement_months`: the greedy `\s*` can only stop at the end of a
whitespace run because the following literal starts with a non-whitespace
character, and the greedy DOTALL group takes the next ≤ 2500 characters. -/
def summaryHere (cs : List Char) : Option (List Char) :=
  match matchLitCI cs "bank".toList with
  | none => none
  | some r1 =>
    match matchLitCI (r1.dropWhile isPyWs) "statement".toList with
    | none => none
    | some r2 =>
      match matchLitCI (r2.dropWhile isPyWs) "summary".toList with
      | none => none
      | some r3 => some (r3.take 2500)

def summaryScan : List Char → Option (List Char)
  | [] => none
  | c :: rest =>
    match summaryHere (c :: rest) with
    | some sec => some sec
    | none => summaryScan rest

/-- Source `_summary_statement_months` (lines 215–223). -/
def summary_statement_months (dateKeys namedKeys : String → Finset String)
    (text : String) : Finset String :=
  match summaryScan text.toList with
  | none => ∅
  | some sec => dateKeys ⟨sec⟩ ∪ namedKeys ⟨sec⟩

/-- Source `_estimate_statement_months` (lines 226–235). -/
def estimate_statement_months (dateKeys namedKeys : String → Finset String)
    (text : String) (bank_doc_count : ℕ) : ℕ :=
  let tx_months := transaction_statement_months dateKeys namedKeys text
  if tx_months ≠ ∅ then max 1 (min 12 tx_months.card)
  else
    let summary_months := summary_statement_months dateKeys namedKeys text
    if 3 ≤ summary_months.card then max 1 (min 12 summary_months.card)
    else max 1 bank_doc_count

/-! ## Salary table parser (lines 260–315)

The per-line regex row matcher (the loop at lines 287–309) is kept abstract as
the `rowMatcher` oracle; the label gate (lines 265–267) and the dedup step
(lines 311–315) are translated exactly.  `dedup[(row.month, row.employer)] =
row` over a Python dict keeps the first-insertion position of each key and
overwrites the stored row, and `list(dedup.values())` lists the retained rows
in that order. -/

def SALARY_TABLE_LABELS : List String := ["salary slip", "salary summary", "salary statement"]

def salary_key (r : SalaryRow) : String × String := (r.month, r.employer)

/-- One `dedup[(row.month, row.employer)] = row` assignment. -/
def upsertRow : List SalaryRow → SalaryRow → List SalaryRow
  | [], r => [r]
  | x :: xs, r => if salary_key x = salary_key r then r :: xs else x :: upsertRow xs r

/-- The dict-based dedup of lines 311–315. -/
def dedupeRows (rows : List SalaryRow) : List SalaryRow :=
  rows.foldl upsertRow []

/-- Source `_extract_salary_rows_from_labeled_tables` (lines 260–315), with the regex
row-matching loop abstracted as `rowMatcher`. -/
def extract_salary_rows_from_labeled_tables (rowMatcher : String → List SalaryRow)
    (raw_text : String) : List SalaryRow :=
  let lowered := strLower raw_text
  if SALARY_TABLE_LABELS.any (fun label => strContains lowered label) then
    dedupeRows (rowMatcher raw_text)
  else []

/-! ## Salary breakdown fabrication and confidence blending -/

/-- Source `_build_salary_breakdown` (lines 238–252); `datetime.utcnow()` is supplied
as the pair `(nowMonth, nowYear)`.  Python `%` on a positive modulus is `Int.emod`. -/
def build_salary_breakdown (nowMonth nowYear : ℤ) (salary confidence : ℚ) :
    List SalaryRow :=
  [(3 : ℤ), 2, 1].map (fun i =>
    let month := (nowMonth - i - 1) % 12 + 1
    let year := if nowMonth > i then nowYear else nowYear - 1
    { month := toString year ++ "-" ++ pad2 month,
      employer := "Extracted Employer",
      amount := round2 salary,
      confidence := confidence })

/-- Source `parse_conf` (line 373): `min(0.95, 0.5 + 0.1 * parsed_fields)`. -/
def parse_conf (parsed_fields : ℕ) : ℚ :=
  min (95 / 100) (1 / 2 + (1 / 10) * parsed_fields)

/-- Source `final_conf` (line 376): `round((base_conf + parse_conf) / 2, 2)`. -/
def final_conf_formula (base_conf : ℚ) (parsed_fields : ℕ) : ℚ :=
  round2 ((base_conf + parse_conf parsed_fields) / 2)

/-- Python `list.sort(key=lambda r: r.month)`: a stable sort by the month key.
A stable sort over a total preorder is unique, so insertion sort coincides
with Python's Timsort here. -/
def sortRowsByMonth (rows : List SalaryRow) : List SalaryRow :=
  List.insertionSort (fun a b => a.month ≤ b.month) rows

/-! ## The pipeline (`extract_structured_data`, lines 318–430)

The per-document loop (lines 319–331) is summarised by the `DocRead` inputs;
the regex oracles and `utcnow` live in `Oracles`. -/

structure Oracles where
  rowMatcher : String → List SalaryRow
  findAmount : String → List String → Option ℚ
  dateKeys : String → Finset String
  namedKeys : String → Finset String
  nowMonth : ℤ
  nowYear : ℤ

def salaryKeywords : List String :=
  ["monthly salary", "net salary", "net pay", "salary credited", "take home",
   "gross salary", "income"]

def emiKeywords : List String :=
  ["emi", "monthly installment", "loan emi", "total emi", "obligation"]

def outstandingKeywords : List String :=
  ["outstanding", "principal outstanding", "loan outstanding", "total due"]

/-- Source `merged_text_raw` (lines 322–333): texts of documents whose stripped text
is non-empty, joined by newlines. -/
def merged_corpus (docs : List DocRead) : String :=
  String.intercalate "\n"
    ((docs.filter (fun d => pyStrip d.text ≠ "")).map (fun d => d.text))

/-- The local `doc_types` (lines 320, 327). -/
def docTypesOf (docs : List DocRead) : List String :=
  docs.map (fun d => classify_document_type d.filename d.text)

/-- The local `merged_text` (line 334). -/
def mergedTextOf (docs : List DocRead) : String := strLower (merged_corpus docs)

/-- The local `salary_rows` (line 336). -/
def salaryRowsOf (o : Oracles) (docs : List DocRead) : List SalaryRow :=
  extract_salary_rows_from_labeled_tables o.rowMatcher (merged_corpus docs)

/-- Source `salary_rows.sort(key=lambda r: r.month)` (line 343). -/
def sortedSalaryRowsOf (o : Oracles) (docs : List DocRead) : List SalaryRow :=
  sortRowsByMonth (salaryRowsOf o docs)

/-- The local `salary_source` (lines 337, 346). -/
def salarySourceOf (o : Oracles) (docs : List DocRead) : String :=
  if (salaryRowsOf o docs).isEmpty then "keyword" else "structured_table"

/-- The table-derived `salary` (lines 338–346): mean of the sorted rows. -/
def tableSalaryOf (o : Oracles) (docs : List DocRead) : Option ℚ :=
  if (salaryRowsOf o docs).isEmpty then none
  else some (round2 (((sortedSalaryRowsOf o docs).map (fun r => r.amount)).sum
    / ((sortedSalaryRowsOf o docs).length : ℚ)))

/-- The local `salary` after lines 338–352 and the default at line 364. -/
def salaryValOf (o : Oracles) (docs : List DocRead) : ℚ :=
  (match tableSalaryOf o docs with
   | some s => some s
   | none => o.findAmount (mergedTextOf docs) salaryKeywords).getD 0

/-- The local `emi` (lines 353–356, 365). -/
def emiValOf (o : Oracles) (docs : List DocRead) : ℚ :=
  (o.findAmount (mergedTextOf docs) emiKeywords).getD 0

/-- The local `outstanding` (lines 357–360, 366). -/
def outstandingValOf (o : Oracles) (docs : List DocRead) : ℚ :=
  (o.findAmount (mergedTextOf docs) outstandingKeywords).getD 0

/-- The local `credit_score` (lines 361, 367). -/
def creditValOf (docs : List DocRead) : ℕ :=
  (find_credit_score (mergedTextOf docs)).getD 0

/-- The local `bank_statement_months` (line 362). -/
def bankMonthsOf (o : Oracles) (docs : List DocRead) : ℕ :=
  estimate_statement_months o.dateKeys o.namedKeys (mergedTextOf docs)
    ((docTypesOf docs).count "bank_statement")

/-- The local `ocr_used` (line 370). -/
def ocrUsedOf (docs : List DocRead) : Bool :=
  (docs.map (fun d => d.ocr_used)).any (fun b => b)

/-- The local `ocr_avg_conf` (line 371). -/
def ocrAvgConfOf (docs : List DocRead) : ℚ :=
  if (docs.map (fun d => d.ocr_confidence)).isEmpty then 0
  else round2 ((docs.map (fun d => d.ocr_confidence)).sum
    / (docs.map (fun d => d.ocr_confidence)).length)

/-- The local `parsed_fields` (line 372). -/
def parsedFieldsOf (o : Oracles) (docs : List DocRead) : ℕ :=
  (if 0 < salaryValOf o docs then 1 else 0) + (if 0 < emiValOf o docs then 1 else 0) +
  (if 0 < outstandingValOf o docs then 1 else 0) + (if 0 < creditValOf docs then 1 else 0)

/-- The local `base_conf` (lines 374–375). -/
def baseConfOf (docs : List DocRead) : ℚ :=
  if ocrUsedOf docs then ocrAvgConfOf docs
  else if pyStrip (mergedTextOf docs) ≠ "" then 92 / 100 else 0

/-- The local `final_conf` (line 376). -/
def finalConfOf (o : Oracles) (docs : List DocRead) : ℚ :=
  final_conf_formula (baseConfOf docs) (parsedFieldsOf o docs)

/-- The local `salary_breakdown` (lines 378–388). -/
def salaryBreakdownOf (o : Oracles) (docs : List DocRead) : List SalaryRow :=
  if (salaryRowsOf o docs).isEmpty then
    if 0 < salaryValOf o docs then
      build_salary_breakdown o.nowMonth o.nowYear (salaryValOf o docs) (finalConfOf o docs)
    else []
  else (sortedSalaryRowsOf o docs).map
    (fun r => { r with confidence := max r.confidence (finalConfOf o docs) })

/-- The local `ordered` (line 393). -/
def orderedBreakdownOf (o : Oracles) (docs : List DocRead) : List SalaryRow :=
  sortRowsByMonth (salaryBreakdownOf o docs)

/-- The locals `latest_monthly_salary` / `average_monthly_salary` (lines 390–395). -/
def latestMonthlyOf (o : Oracles) (docs : List DocRead) : ℚ :=
  if (salaryBreakdownOf o docs).isEmpty then 0
  else round2 ((orderedBreakdownOf o docs).getLastD
    { month := "", employer := "", amount := 0, confidence := 0 }).amount

def averageMonthlyOf (o : Oracles) (docs : List DocRead) : ℚ :=
  if (salaryBreakdownOf o docs).isEmpty then 0
  else round2 (((orderedBreakdownOf o docs).map (fun r => r.amount)).sum
    / (orderedBreakdownOf o docs).length)

/-- The local `obligations` (lines 396–407). -/
def obligationsOf (o : Oracles) (docs : List DocRead) : List ObligationRow :=
  if 0 < emiValOf o docs ∨ 0 < outstandingValOf o docs then
    [{ lender := "Extracted Lender", obligation_type := "Loan EMI",
       monthly_amount := round2 (emiValOf o docs),
       outstanding_amount := round2 (outstandingValOf o docs) }]
  else []

/-- Source `extract_structured_data` (lines 318–430), assembled from the named locals
above exactly as the dicts at lines 409–429. -/
def extract_structured_data (o : Oracles) (docs : List DocRead) : ExtractOutput :=
  { extracted :=
      { monthly_salary := round2 (salaryValOf o docs),
        latest_monthly_salary := latestMonthlyOf o docs,
        average_monthly_salary := averageMonthlyOf o docs,
        monthly_obligations := round2 (emiValOf o docs),
        annual_income := round2 (salaryValOf o docs * 12),
        emi_ratio_percent :=
          if 0 < salaryValOf o docs then
            round2 (emiValOf o docs / salaryValOf o docs * 100)
          else 0,
        credit_score := creditValOf docs,
        bank_statement_months := bankMonthsOf o docs,
        documents_uploaded := docs.map (fun d => d.filename),
        document_types_detected := docTypesOf docs,
        ocr_average_confidence := finalConfOf o docs,
        name_match_score := 9 / 10,
        salary_extraction_source := salarySourceOf o docs },
    salary_breakdown := salaryBreakdownOf o docs,
    obligations := obligationsOf o docs,
    processing :=
      { ocr_used := ocrUsedOf docs,
        ocr_confidence := ocrAvgConfOf docs,
        text_length := (pyStrip (mergedTextOf docs)).length,
        low_quality := ocrUsedOf docs && decide (ocrAvgConfOf docs < 55 / 100) } }

/-! ## Checklist engine (`detect_pending_forms`, lines 439–470) -/

/-- One entry of the configured `pending_forms.json` table. -/
structure FormRow where
  code : String
  name : String
  trigger_rule : String
  deriving DecidableEq, Repr

def detect_pending_forms : List FormRow → Extracted → List String → List PendingFormItem
  | [], _, _ => []
  | form :: rest, extracted_data, missing_documents =>
    let tail := detect_pending_forms rest extracted_data missing_documents
    if form.trigger_rule = "if_missing_income_proof" ∧
       ("salary_slip" ∈ missing_documents ∨ "itr" ∈ missing_documents ∨
        "bank_statement" ∈ missing_documents) then
      { form_code := form.code, form_name := form.name,
        reason := "Income proof documents are incomplete" } :: tail
    else if form.trigger_rule = "if_credit_score_below_700" ∧
            extracted_data.credit_score < 700 then
      { form_code := form.code, form_name := form.name,
        reason := "Credit score below preferred threshold" } :: tail
    else if form.trigger_rule = "if_name_match_below_0_9" ∧
            extracted_data.name_match_score < 9 / 10 then
      { form_code := form.code, form_name := form.name,
        reason := "Name mismatch risk in submitted documents" } :: tail
    else tail

/-! ## Query predictor (`predict_credit_queries`, lines 473–503) -/

/-- One entry of the configured `historical_queries.json` catalog. -/
structure QueryRow where
  query : String
  tags : List String
  base_confidence : ℚ
  deriving DecidableEq, Repr

/-- Source `re.findall(r"[a-z_]+", s)` character class. -/
def isTokenChar (c : Char) : Bool := (97 ≤ c.toNat ∧ c.toNat ≤ 122) || c = '_'

/-- Source `re.findall(r"[a-z_]+", s)`: the maximal runs of token characters. -/
def tokenRunsAux : List Char → List Char → List (List Char)
  | cur, [] => if cur.isEmpty then [] else [cur.reverse]
  | cur, c :: rest =>
    if isTokenChar c then tokenRunsAux (c :: cur) rest
    else if cur.isEmpty then tokenRunsAux [] rest
    else cur.reverse :: tokenRunsAux [] rest

def findTokens (s : String) : List String :=
  (tokenRunsAux [] s.toList).map List.asString

/-- The token set built at lines 479–484. -/
def queryTokens (extracted_data : Extracted) (missing_documents : List String)
    (pending_forms : List PendingFormItem) : Finset String :=
  let t1 := (findTokens (strLower (String.intercalate " " missing_documents))).toFinset
  let t2 := t1 ∪
    (findTokens (strLower (String.intercalate " "
      (pending_forms.map (fun f => f.form_code))))).toFinset
  let t3 := if 40 < extracted_data.emi_ratio_percent then t2 ∪ {"high_emi"} else t2
  if extracted_data.credit_score < 700 then t3 ∪ {"low_credit"} else t3

def tagOverlap (tokens : Finset String) (row : QueryRow) : ℕ :=
  (tokens ∩ row.tags.toFinset).card

/-- Source `min(0.99, row.get("base_confidence", 0.5) + (0.08 * overlap))` (line 490). -/
def queryScore (tokens : Finset String) (row : QueryRow) : ℚ :=
  min (99 / 100) (row.base_confidence + (8 / 100) * tagOverlap tokens row)

/-- The `scored` list (lines 486–492): only entries with positive overlap. -/
def scoredQueries (tokens : Finset String) (rows : List QueryRow) : List (ℚ × QueryRow) :=
  (rows.filter (fun row => 0 < tagOverlap tokens row)).map
    (fun row => (queryScore tokens row, row))

/-- The `top` list (lines 494–495).  `scored.sort(key=score, reverse=True)` is
a stable descending sort, modelled by insertion sort with the strict relation
(equal scores keep catalog order). -/
def topQueries (tokens : Finset String) (rows : List QueryRow) : List (ℚ × QueryRow) :=
  if !(scoredQueries tokens rows).isEmpty then
    (List.insertionSort (fun x y : ℚ × QueryRow => y.1 < x.1)
      (scoredQueries tokens rows)).take 3
  else
    match rows with
    | [] => []
    | r0 :: _ => [((62 / 100 : ℚ), r0)]

/-- The scoring/sorting/top-3 part of `predict_credit_queries`
(lines 486–503). -/
def rankQueries (tokens : Finset String) (rows : List QueryRow) : List PredictedQuery :=
  (topQueries tokens rows).map (fun item =>
    { query := item.2.query,
      confidence := round2 item.1,
      rationale := "Matched tags: " ++ String.intercalate ", " item.2.tags })

/-- Source `predict_credit_queries` (lines 473–503). -/
def predict_credit_queries (extracted_data : Extracted) (missing_documents : List String)
    (pending_forms : List PendingFormItem) (rows : List QueryRow) : List PredictedQuery :=
  rankQueries (queryTokens extracted_data missing_documents pending_forms) rows

/-! ## OCR failure model (`_ocr_image_bytes` lines 66–91, `_ocr_pdf_bytes`
lines 94–120)

The external libraries are modelled with `Except Unit`: `lib = .error ()`
stands for `Image.open`/`pytesseract.image_to_data` (resp. `pypdfium2`
rendering) raising.  `image_to_data`'s dict is `OcrData`, with `.get`
defaults as in the source; `float(conf_raw)` is the `parseFloat` parameter
(its inner `try/except` maps a parse failure to `-1`).  An out-of-range
`data.get("conf", ["-1"])[idx]` raises `IndexError`, caught only by the outer
`except`, hence the `Except` in `ocr_core`.  The Lean functions are total:
the translation of the outer `try/except Exception` blocks is the final
`match`, which turns every failure into `("", 0.0)`. -/

structure OcrData where
  text : Option (List String)
  conf : Option (List String)

/-- The token loop of `_ocr_image_bytes` (lines 75–85). -/
def ocrLoop (parseFloat : String → Option ℚ) (confs : List String) :
    List String → ℕ → List String → List ℚ → Except Unit (List String × List ℚ)
  | [], _, words, conf_values => .ok (words, conf_values)
  | token :: ts, idx, words, conf_values =>
    match confs.get? idx with
    | none => .error ()
    | some conf_raw =>
      let txt := pyStrip token
      let conf : ℚ := match parseFloat conf_raw with | some c => c | none => -1
      let words2 := if txt ≠ "" then words ++ [txt] else words
      let conf_values2 := if 0 ≤ conf then conf_values ++ [conf / 100] else conf_values
      ocrLoop parseFloat confs ts (idx + 1) words2 conf_values2

/-- The body of the `try` block of `_ocr_image_bytes` (lines 71–89). -/
def ocr_core (parseFloat : String → Option ℚ) (d : OcrData) : Except Unit (String × ℚ) :=
  let texts := d.text.getD []
  let confs := d.conf.getD ["-1"]
  match ocrLoop parseFloat confs texts 0 [] [] with
  | .error e => .error e
  | .ok (words, conf_values) =>
    if words.isEmpty then .ok ("", 0)
    else
      let avg_conf := if conf_values.isEmpty then 0 else conf_values.sum / conf_values.length
      .ok (String.intercalate " " words, round2 avg_conf)

/-- Source `_ocr_image_bytes` (lines 66–91): total; every failure path degrades. -/
def ocr_image_bytes (parseFloat : String → Option ℚ) (lib : Except Unit OcrData) :
    String × ℚ :=
  match lib with
  | .error _ => ("", 0)
  | .ok d =>
    match ocr_core parseFloat d with
    | .error _ => ("", 0)
    | .ok r => r

/-- Source `_ocr_pdf_bytes` (lines 94–120): the rasterizer either fails as a whole
(`.error`, the outer `except`) or yields per-page OCR inputs; each page is
passed through `_ocr_image_bytes`, which never raises. -/
def ocr_pdf_bytes (parseFloat : String → Option ℚ)
    (lib : Except Unit (List (Except Unit OcrData))) : String × ℚ :=
  match lib with
  | .error _ => ("", 0)
  | .ok pages =>
    let results := pages.map (ocr_image_bytes parseFloat)
    let page_texts := (results.filter (fun r => pyStrip r.1 ≠ "")).map (fun r => r.1)
    let conf_scores := results.map (fun r => r.2)
    let merged := String.intercalate "\n" page_texts
    let avg_conf := if conf_scores.isEmpty then 0 else conf_scores.sum / conf_scores.length
    (merged, round2 avg_conf)

/-! ## Shared arithmetic lemmas about `round2` -/

theorem round2_intCast_div (z : ℤ) : round2 ((z : ℚ) / 100) = (z : ℚ) / 100 := by
  unfold round2
  rw [div_mul_cancel₀ _ (by norm_num : (100 : ℚ) ≠ 0), round_intCast]

theorem round2_mono {x y : ℚ} (h : x ≤ y) : round2 x ≤ round2 y := by
  unfold round2
  have h2 : round (x * 100) ≤ round (y * 100) := by
    rw [round_eq, round_eq]
    exact Int.floor_mono (by linarith)
  have h3 : ((round (x * 100) : ℤ) : ℚ) ≤ ((round (y * 100) : ℤ) : ℚ) := by exact_mod_cast h2
  linarith

theorem round2_round2 (q : ℚ) : round2 (round2 q) = round2 q := by
  have h := round2_intCast_div (round (q * 100))
  unfold round2 at h ⊢
  exact h

/-! ## Claim theorems -/

/-- C5: holding `base_conf` fixed, `final_conf = round((base_conf +
min(0.95, 0.5 + 0.1 * parsed_fields)) / 2, 2)` is monotonically
non-decreasing in the count `parsed_fields` of nonzero extracted fields. -/
theorem final_conf_monotone_in_parsed_fields (base_conf : ℚ) (m n : ℕ) (h : m ≤ n) :
    final_conf_formula base_conf m ≤ final_conf_formula base_conf n := by
  unfold final_conf_formula
  apply round2_mono
  have hp : parse_conf m ≤ parse_conf n := by
    unfold parse_conf
    apply min_le_min le_rfl
    have : (m : ℚ) ≤ (n : ℚ) := by exact_mod_cast h
    linarith
  linarith

theorem final_conf_monotone_in_parsed_fields_witness :
    1 ≤ 3 ∧ final_conf_formula 1 1 ≤ final_conf_formula 1 3 :=
  ⟨by decide, final_conf_monotone_in_parsed_fields 1 1 3 (by decide)⟩

/-- Helper for C8: when the extracted mapping carries `name_match_score = 0.9`,
no pending form is emitted by the name-mismatch branch (its reason string
never appears). -/
theorem detect_no_name_reason (forms : List FormRow) (e : Extracted)
    (missing : List String) (he : e.name_match_score = 9 / 10) :
    ∀ p ∈ detect_pending_forms forms e missing,
      p.reason ≠ "Name mismatch risk in submitted documents" := by
  induction forms with
  | nil => intro p hp; simp [detect_pending_forms] at hp
  | cons f rest ih =>
    intro p hp
    simp only [detect_pending_forms] at hp
    split_ifs at hp with h1 h2 h3
    · rcases List.mem_cons.mp hp with rfl | hmem
      · simp
      · exact ih p hmem
    · rcases List.mem_cons.mp hp with rfl | hmem
      · simp
      · exact ih p hmem
    · exact absurd h3.2 (by rw [he]; exact lt_irrefl _)
    · exact ih p hp

/-- C8: `extract_structured_data` always sets `name_match_score` to the
constant 0.9, and consequently `detect_pending_forms` applied to its output
never includes a form via the `if_name_match_below_0_9` rule (whose branch is
the only source of the name-mismatch reason). -/
theorem name_match_constant_excludes_name_rule (o : Oracles) (docs : List DocRead)
    (forms : List FormRow) (missing : List String) :
    (extract_structured_data o docs).extracted.name_match_score = 9 / 10 ∧
    ∀ p ∈ detect_pending_forms forms (extract_structured_data o docs).extracted missing,
      p.reason ≠ "Name mismatch risk in submitted documents" :=
  ⟨rfl, detect_no_name_reason forms _ missing rfl⟩

/-- C10: a default (0) credit score makes every `if_credit_score_below_700`
form fire with the low-credit reason. -/
theorem zero_credit_score_triggers_low_credit_forms
    (forms : List FormRow) (e : Extracted) (missing : List String) (f : FormRow)
    (hcs : e.credit_score = 0) (hf : f ∈ forms)
    (hr : f.trigger_rule = "if_credit_score_below_700") :
    ({ form_code := f.code, form_name := f.name,
       reason := "Credit score below preferred threshold" } : PendingFormItem)
      ∈ detect_pending_forms forms e missing := by
  induction forms with
  | nil => cases hf
  | cons g rest ih =>
    simp only [detect_pending_forms]
    rcases List.mem_cons.mp hf with rfl | hmem
    · rw [if_neg, if_pos ⟨hr, by rw [hcs]; decide⟩]
      · exact List.mem_cons_self _ _
      · intro hcon
        rw [hr] at hcon
        exact absurd hcon.1 (by decide)
    · have htail := ih hmem
      split_ifs <;>
        first
          | exact List.mem_cons_of_mem _ htail
          | exact htail

def eZero : Extracted :=
  { monthly_salary := 0, latest_monthly_salary := 0, average_monthly_salary := 0,
    monthly_obligations := 0, annual_income := 0, emi_ratio_percent := 0,
    credit_score := 0, bank_statement_months := 1, documents_uploaded := [],
    document_types_detected := [], ocr_average_confidence := 0,
    name_match_score := 1, salary_extraction_source := "keyword" }

def lowCreditForm : FormRow :=
  { code := "FORM_CS", name := "Credit Improvement Declaration",
    trigger_rule := "if_credit_score_below_700" }

theorem zero_credit_score_triggers_low_credit_forms_witness :
    ({ form_code := "FORM_CS", form_name := "Credit Improvement Declaration",
       reason := "Credit score below preferred threshold" } : PendingFormItem)
      ∈ detect_pending_forms [lowCreditForm] eZero [] :=
  zero_credit_score_triggers_low_credit_forms [lowCreditForm] eZero [] lowCreditForm
    rfl (List.mem_cons_self _ _) rfl

/-- C6: the text-acquisition OCR helpers are total functions into
`String × ℚ` (they cannot raise by construction), and every modelled failure
path — the image library or OCR engine raising, the `try` body raising (e.g.
a `conf` list shorter than the `text` list), or the PDF rasterizer raising —
yields the degraded result `("", 0.0)` for that document. -/
theorem ocr_failures_degrade_to_empty (parseFloat : String → Option ℚ) :
    ocr_image_bytes parseFloat (Except.error ()) = ("", 0) ∧
    (∀ d : OcrData, ocr_core parseFloat d = Except.error () →
      ocr_image_bytes parseFloat (Except.ok d) = ("", 0)) ∧
    ocr_pdf_bytes parseFloat (Except.error ()) = ("", 0) := by
  refine ⟨rfl, ?_, rfl⟩
  intro d hd
  have hstep : ocr_image_bytes parseFloat (Except.ok d)
      = (match ocr_core parseFloat d with
         | Except.error _ => (("", 0) : String × ℚ)
         | Except.ok r => r) := rfl
  rw [hstep, hd]

theorem ocr_failures_degrade_to_empty_witness :
    ocr_core (fun _ => none) { text := some ["word"], conf := some [] } = Except.error () ∧
    ocr_image_bytes (fun _ => none) (Except.ok { text := some ["word"], conf := some [] })
      = ("", 0) :=
  ⟨rfl, (ocr_failures_degrade_to_empty (fun _ => none)).2.1
    { text := some ["word"], conf := some [] } rfl⟩

/-- Helper for C2: bounds of the statement-month estimator.  The two
evidence paths clamp into `[1, 12]`; the document-count fallback is only
clamped from below. -/
theorem estimate_statement_months_bounds (dateKeys namedKeys : String → Finset String)
    (text : String) (bank_doc_count : ℕ) :
    1 ≤ estimate_statement_months dateKeys namedKeys text bank_doc_count ∧
    estimate_statement_months dateKeys namedKeys text bank_doc_count
      ≤ max 12 bank_doc_count := by
  unfold estimate_statement_months
  dsimp only
  split_ifs with h1 h2 <;> constructor <;> omega

/-- C2 (amended): `bank_statement_months` is always at least 1 and at most
`max 12 bank_doc_count`; the transaction-evidence and summary paths stay
within `[1, 12]`, but the document-count fallback `max(1, bank_doc_count)`
has no upper clamp. -/
theorem bank_statement_months_bounds (o : Oracles) (docs : List DocRead) :
    1 ≤ (extract_structured_data o docs).extracted.bank_statement_months ∧
    (extract_structured_data o docs).extracted.bank_statement_months
      ≤ max 12 ((docTypesOf docs).count "bank_statement") := by
  have hb : (extract_structured_data o docs).extracted.bank_statement_months
      = estimate_statement_months o.dateKeys o.namedKeys (mergedTextOf docs)
          ((docTypesOf docs).count "bank_statement") := rfl
  rw [hb]
  exact estimate_statement_months_bounds o.dateKeys o.namedKeys (mergedTextOf docs) _

/-- Concrete oracles for the closed counterexamples: each regex oracle is
instantiated with the value the corresponding source regex yields on the
counterexample corpora (no table labels, no keyword hits, no month keys). -/
def cOracles : Oracles :=
  { rowMatcher := fun _ => [], findAmount := fun _ _ => none,
    dateKeys := fun _ => ∅, namedKeys := fun _ => ∅,
    nowMonth := 1, nowYear := 2026 }

def bankDoc : DocRead :=
  { filename := "bank_statement_1.pdf", text := "", ocr_used := false,
    ocr_confidence := 0 }

/-- C2 counterexample: with 13 documents classified as bank statements and an
empty corpus, the document-count fallback returns 13, outside `[1, 12]`. -/
theorem bank_statement_months_claim_counterexample :
    (extract_structured_data cOracles (List.replicate 13 bankDoc)).extracted.bank_statement_months
      = 13 ∧
    ¬((1 ≤ (extract_structured_data cOracles (List.replicate 13 bankDoc)).extracted.bank_statement_months) ∧
      (extract_structured_data cOracles (List.replicate 13 bankDoc)).extracted.bank_statement_months ≤ 12) := by
  constructor
  · decide
  · intro h
    have h13 : (extract_structured_data cOracles (List.replicate 13 bankDoc)).extracted.bank_statement_months = 13 := by decide
    rw [h13] at h
    omega

/-- The three-digit capture group `[3-9][0-9]{2}` always reads 300–999. -/
theorem threeDigitHere_range (cs : List Char) (n : ℕ)
    (h : threeDigitHere cs = some n) : 300 ≤ n ∧ n ≤ 999 := by
  cases cs with
  | nil => simp [threeDigitHere] at h
  | cons a t =>
    cases t with
    | nil => simp [threeDigitHere] at h
    | cons b t2 =>
      cases t2 with
      | nil => simp [threeDigitHere] at h
      | cons c t3 =>
        simp only [threeDigitHere] at h
        split_ifs at h with hcond
        obtain rfl := Option.some.inj h
        omega

theorem lazyThreeDigit_range (budget : ℕ) :
    ∀ (cs : List Char) (n : ℕ), lazyThreeDigit budget cs = some n →
      300 ≤ n ∧ n ≤ 999 := by
  induction budget with
  | zero =>
    intro cs n h
    exact threeDigitHere_range cs n h
  | succ b ih =>
    intro cs n h
    cases cs with
    | nil => exact threeDigitHere_range [] n h
    | cons c rest =>
      rw [lazyThreeDigit] at h
      cases h3 : threeDigitHere (c :: rest) with
      | some m =>
        rw [h3] at h
        obtain rfl := Option.some.inj h
        exact threeDigitHere_range _ _ h3
      | none =>
        rw [h3] at h
        exact ih rest n h

theorem creditScoreHere_range (cs : List Char) (n : ℕ)
    (h : creditScoreHere cs = some n) : 300 ≤ n ∧ n ≤ 999 := by
  unfold creditScoreHere at h
  split at h
  · exact absurd h (by simp)
  · split at h
    · exact absurd h (by simp)
    · exact lazyThreeDigit_range 30 _ n h

theorem creditScoreScan_range (cs : List Char) :
    ∀ n : ℕ, creditScoreScan cs = some n → 300 ≤ n ∧ n ≤ 999 := by
  induction cs with
  | nil => intro n h; simp [creditScoreScan] at h
  | cons c rest ih =>
    intro n h
    unfold creditScoreScan at h
    split at h
    · next m hm =>
      obtain rfl := Option.some.inj h
      exact creditScoreHere_range _ _ hm
    · exact ih n h

theorem find_credit_score_range (text : String) (n : ℕ)
    (h : find_credit_score text = some n) : 300 ≤ n ∧ n ≤ 999 :=
  creditScoreScan_range text.toList n h

/-- C3 (amended): the pipeline's `credit_score` is either the default 0 or an
integer in 300–999 (the regex `[3-9][0-9]{2}` admits values up to 999, not
only up to 900). -/
theorem credit_score_zero_or_in_300_999 (o : Oracles) (docs : List DocRead) :
    (extract_structured_data o docs).extracted.credit_score = 0 ∨
    (300 ≤ (extract_structured_data o docs).extracted.credit_score ∧
      (extract_structured_data o docs).extracted.credit_score ≤ 999) := by
  have h : (extract_structured_data o docs).extracted.credit_score
      = (find_credit_score (mergedTextOf docs)).getD 0 := rfl
  rw [h]
  cases hc : find_credit_score (mergedTextOf docs) with
  | none => left; rfl
  | some n => right; simpa using find_credit_score_range _ n hc

def creditDoc : DocRead :=
  { filename := "report.pdf", text := "cibil score 950", ocr_used := false,
    ocr_confidence := 1 }

/-- C3 counterexample: the corpus `"cibil score 950"` yields
`credit_score = 950`, which is neither 0 nor within 300–900. -/
theorem credit_score_claim_counterexample :
    (extract_structured_data cOracles [creditDoc]).extracted.credit_score = 950 ∧
    ¬((extract_structured_data cOracles [creditDoc]).extracted.credit_score = 0 ∨
      (300 ≤ (extract_structured_data cOracles [creditDoc]).extracted.credit_score ∧
        (extract_structured_data cOracles [creditDoc]).extracted.credit_score ≤ 900)) := by
  have h950 : (extract_structured_data cOracles [creditDoc]).extracted.credit_score = 950 := by
    decide
  refine ⟨h950, ?_⟩
  intro hcon
  rw [h950] at hcon
  rcases hcon with h | ⟨h1, h2⟩ <;> omega

/-- The last parsed row with a given `(month, employer)` key. -/
def lastWithKey (k : String × String) : List SalaryRow → Option SalaryRow
  | [] => none
  | r :: rs =>
    match lastWithKey k rs with
    | some x => some x
    | none => if salary_key r = k then some r else none

theorem find?_upsertRow_self (l : List SalaryRow) (r : SalaryRow) :
    (upsertRow l r).find? (fun x => decide (salary_key x = salary_key r)) = some r := by
  induction l with
  | nil => simp [upsertRow, List.find?]
  | cons x xs ih =>
    unfold upsertRow
    split_ifs with hx
    · simp [List.find?]
    · simp only [List.find?]
      rw [decide_eq_false hx]
      exact ih

theorem find?_upsertRow_ne (l : List SalaryRow) (r : SalaryRow) (k : String × String)
    (hne : salary_key r ≠ k) :
    (upsertRow l r).find? (fun x => decide (salary_key x = k))
      = l.find? (fun x => decide (salary_key x = k)) := by
  induction l with
  | nil => simp [upsertRow, List.find?, decide_eq_false hne]
  | cons x xs ih =>
    unfold upsertRow
    split_ifs with hx
    · simp only [List.find?]
      rw [decide_eq_false hne, decide_eq_false (hx ▸ hne)]
    · simp only [List.find?]
      cases hdx : decide (salary_key x = k)
      · simpa [hdx] using ih
      · simp [hdx]

theorem find?_foldl_upsertRow (rows : List SalaryRow) :
    ∀ (acc : List SalaryRow) (k : String × String),
      (rows.foldl upsertRow acc).find? (fun x => decide (salary_key x = k))
        = match lastWithKey k rows with
          | some r => some r
          | none => acc.find? (fun x => decide (salary_key x = k)) := by
  induction rows with
  | nil => intro acc k; rfl
  | cons r rs ih =>
    intro acc k
    simp only [List.foldl_cons, lastWithKey]
    rw [ih]
    cases hlast : lastWithKey k rs with
    | some x => rfl
    | none =>
      by_cases hk : salary_key r = k
      · rw [if_pos hk, ← hk, find?_upsertRow_self]
      · rw [if_neg hk, find?_upsertRow_ne acc r k hk]

theorem mem_keys_upsertRow (l : List SalaryRow) (r : SalaryRow) (y : String × String)
    (hy : y ∈ (upsertRow l r).map salary_key) :
    y = salary_key r ∨ y ∈ l.map salary_key := by
  induction l with
  | nil => simpa [upsertRow] using hy
  | cons x xs ih =>
    unfold upsertRow at hy
    split_ifs at hy with hx
    · simp only [List.map_cons, List.mem_cons] at hy ⊢
      rcases hy with rfl | hmem
      · exact Or.inl rfl
      · exact Or.inr (Or.inr hmem)
    · simp only [List.map_cons, List.mem_cons] at hy ⊢
      rcases hy with rfl | hmem
      · exact Or.inr (Or.inl rfl)
      · rcases ih hmem with h | h
        · exact Or.inl h
        · exact Or.inr (Or.inr h)

theorem nodup_keys_upsertRow (l : List SalaryRow) (r : SalaryRow)
    (h : (l.map salary_key).Nodup) : ((upsertRow l r).map salary_key).Nodup := by
  induction l with
  | nil => simp [upsertRow]
  | cons x xs ih =>
    unfold upsertRow
    split_ifs with hx
    · simp only [List.map_cons, List.nodup_cons] at h ⊢
      exact ⟨hx ▸ h.1, h.2⟩
    · simp only [List.map_cons, List.nodup_cons] at h ⊢
      refine ⟨?_, ih h.2⟩
      intro hmem
      rcases mem_keys_upsertRow xs r _ hmem with heq | hmem2
      · exact hx heq
      · exact h.1 hmem2

theorem nodup_keys_foldl_upsertRow (rows : List SalaryRow) :
    ∀ acc : List SalaryRow, (acc.map salary_key).Nodup →
      ((rows.foldl upsertRow acc).map salary_key).Nodup := by
  induction rows with
  | nil => intro acc h; exact h
  | cons r rs ih =>
    intro acc h
    simp only [List.foldl_cons]
    exact ih _ (nodup_keys_upsertRow acc r h)

/-- C4: the salary table parser emits at most one row per `(month, employer)`
key, and — whenever a table label activates the parser — the row retained for
a key is exactly the last row the regex loop parsed with that key. -/
theorem salary_rows_dedup_last_wins (rm : String → List SalaryRow) (text : String) :
    ((extract_salary_rows_from_labeled_tables rm text).map salary_key).Nodup ∧
    (SALARY_TABLE_LABELS.any (fun label => strContains (strLower text) label) = true →
      ∀ k : String × String,
        (extract_salary_rows_from_labeled_tables rm text).find?
          (fun x => decide (salary_key x = k)) = lastWithKey k (rm text)) := by
  constructor
  · unfold extract_salary_rows_from_labeled_tables
    dsimp only
    split_ifs with hl
    · exact nodup_keys_foldl_upsertRow (rm text) [] (by simp)
    · simp
  · intro hl k
    unfold extract_salary_rows_from_labeled_tables
    dsimp only
    rw [if_pos hl]
    unfold dedupeRows
    rw [find?_foldl_upsertRow]
    cases hlast : lastWithKey k (rm text) with
    | some x => rfl
    | none => rfl

def dupRowA : SalaryRow :=
  { month := "2026-01", employer := "Acme", amount := 50000, confidence := 1 }

def dupRowB : SalaryRow :=
  { month := "2026-01", employer := "Acme", amount := 60000, confidence := 1 }

theorem salary_rows_dedup_last_wins_witness :
    (extract_salary_rows_from_labeled_tables (fun _ => [dupRowA, dupRowB]) "salary slip").find?
        (fun x => decide (salary_key x = ("2026-01", "Acme")))
      = lastWithKey ("2026-01", "Acme") [dupRowA, dupRowB] ∧
    lastWithKey ("2026-01", "Acme") [dupRowA, dupRowB] = some dupRowB :=
  ⟨(salary_rows_dedup_last_wins (fun _ => [dupRowA, dupRowB]) "salary slip").2 (by decide) _,
   by decide⟩

/-- C1: when the salary table parser yields at least one row, the pipeline
reports `salary_extraction_source = "structured_table"` (whatever the keyword
extractor would have found) and `monthly_salary` is the mean of the parsed row
amounts rounded to two decimals. -/
theorem structured_table_overrides_keyword (o : Oracles) (docs : List DocRead)
    (h : salaryRowsOf o docs ≠ []) :
    (extract_structured_data o docs).extracted.salary_extraction_source
      = "structured_table" ∧
    (extract_structured_data o docs).extracted.monthly_salary
      = round2 (((salaryRowsOf o docs).map (fun r => r.amount)).sum
          / ((salaryRowsOf o docs).length : ℚ)) := by
  have hempty : (salaryRowsOf o docs).isEmpty = false := by
    cases he : (salaryRowsOf o docs).isEmpty
    · rfl
    · exact absurd (List.isEmpty_iff.mp he) h
  constructor
  · show salarySourceOf o docs = "structured_table"
    simp [salarySourceOf, hempty]
  · show round2 (salaryValOf o docs) = _
    have hval : salaryValOf o docs
        = round2 (((sortedSalaryRowsOf o docs).map (fun r => r.amount)).sum
            / ((sortedSalaryRowsOf o docs).length : ℚ)) := by
      unfold salaryValOf tableSalaryOf
      rw [hempty]
      rfl
    rw [hval, round2_round2]
    have hperm : List.Perm (sortedSalaryRowsOf o docs) (salaryRowsOf o docs) :=
      List.perm_insertionSort _ _
    rw [(hperm.map (fun r => r.amount)).sum_eq, hperm.length_eq]

def c1Row : SalaryRow :=
  { month := "2026-01", employer := "Acme Corp", amount := 50000, confidence := 92 / 100 }

def c1Oracles : Oracles :=
  { rowMatcher := fun _ => [c1Row], findAmount := fun _ _ => none,
    dateKeys := fun _ => ∅, namedKeys := fun _ => ∅, nowMonth := 10, nowYear := 2026 }

def c1Doc : DocRead :=
  { filename := "salary_slip.pdf", text := "Salary Slip\nJan 2026 | Acme Corp | INR 50,000",
    ocr_used := false, ocr_confidence := 1 }

theorem structured_table_overrides_keyword_witness :
    salaryRowsOf c1Oracles [c1Doc] ≠ [] ∧
    ((extract_structured_data c1Oracles [c1Doc]).extracted.salary_extraction_source
        = "structured_table" ∧
      (extract_structured_data c1Oracles [c1Doc]).extracted.monthly_salary
        = round2 (((salaryRowsOf c1Oracles [c1Doc]).map (fun r => r.amount)).sum
            / ((salaryRowsOf c1Oracles [c1Doc]).length : ℚ))) :=
  ⟨by decide, structured_table_overrides_keyword c1Oracles [c1Doc] (by decide)⟩

/-- C9: with no parsed table rows and a positive keyword salary, the pipeline
fabricates exactly 3 salary rows with employer "Extracted Employer", amount
`round(salary, 2)` and confidence `final_conf` (the value the extracted
mapping publishes as `ocr_average_confidence`); with no rows and a zero (or
absent) keyword salary, the breakdown is empty. -/
theorem fabricated_salary_breakdown_shape (o : Oracles) (docs : List DocRead) :
    (salaryRowsOf o docs = [] →
      ∀ s : ℚ, o.findAmount (mergedTextOf docs) salaryKeywords = some s → 0 < s →
        (extract_structured_data o docs).salary_breakdown.length = 3 ∧
        ∀ r ∈ (extract_structured_data o docs).salary_breakdown,
          r.employer = "Extracted Employer" ∧ r.amount = round2 s ∧
          r.confidence = (extract_structured_data o docs).extracted.ocr_average_confidence) ∧
    (salaryRowsOf o docs = [] →
      (o.findAmount (mergedTextOf docs) salaryKeywords = none ∨
        o.findAmount (mergedTextOf docs) salaryKeywords = some 0) →
      (extract_structured_data o docs).salary_breakdown = []) := by
  constructor
  · intro hrows s hfa hs
    have hempty : (salaryRowsOf o docs).isEmpty = true := by simp [hrows]
    have hval : salaryValOf o docs = s := by
      unfold salaryValOf tableSalaryOf
      simp [hempty, hfa]
    have hsb : (extract_structured_data o docs).salary_breakdown
        = build_salary_breakdown o.nowMonth o.nowYear (salaryValOf o docs)
            (finalConfOf o docs) := by
      show salaryBreakdownOf o docs = _
      unfold salaryBreakdownOf
      rw [hempty, if_pos rfl, if_pos (hval ▸ hs)]
    have hocr : (extract_structured_data o docs).extracted.ocr_average_confidence
        = finalConfOf o docs := rfl
    rw [hsb, hocr]
    constructor
    · simp [build_salary_breakdown]
    · intro r hr
      unfold build_salary_breakdown at hr
      obtain ⟨i, hi, rfl⟩ := List.mem_map.mp hr
      exact ⟨rfl, by rw [hval], rfl⟩
  · intro hrows hfa
    have hempty : (salaryRowsOf o docs).isEmpty = true := by simp [hrows]
    have hval0 : salaryValOf o docs = 0 := by
      unfold salaryValOf tableSalaryOf
      rcases hfa with h | h <;> simp [hempty, h]
    show salaryBreakdownOf o docs = []
    unfold salaryBreakdownOf
    rw [hempty, if_pos rfl, if_neg (by rw [hval0]; exact lt_irrefl 0)]

def c9Oracles : Oracles :=
  { rowMatcher := fun _ => [],
    findAmount := fun _ kws => if "net pay" ∈ kws then some 45000 else none,
    dateKeys := fun _ => ∅, namedKeys := fun _ => ∅, nowMonth := 10, nowYear := 2026 }

def c9Doc : DocRead :=
  { filename := "payslip.pdf", text := "net pay 45000", ocr_used := false,
    ocr_confidence := 1 }

theorem fabricated_salary_breakdown_shape_witness :
    salaryRowsOf c9Oracles [c9Doc] = [] ∧
    c9Oracles.findAmount (mergedTextOf [c9Doc]) salaryKeywords = some 45000 ∧
    (0 : ℚ) < 45000 ∧
    ((extract_structured_data c9Oracles [c9Doc]).salary_breakdown.length = 3 ∧
      ∀ r ∈ (extract_structured_data c9Oracles [c9Doc]).salary_breakdown,
        r.employer = "Extracted Employer" ∧ r.amount = round2 45000 ∧
        r.confidence
          = (extract_structured_data c9Oracles [c9Doc]).extracted.ocr_average_confidence) :=
  ⟨by decide, by decide, by norm_num,
    (fabricated_salary_breakdown_shape c9Oracles [c9Doc]).1 (by decide) 45000 (by decide)
      (by norm_num)⟩

theorem round2_zero : round2 0 = 0 := by
  unfold round2
  rw [zero_mul, round_zero]
  norm_num

theorem round2_62 : round2 (62 / 100) = 62 / 100 := by
  have h := round2_intCast_div 62
  have e : ((62 : ℤ) : ℚ) / 100 = 62 / 100 := by norm_num
  rw [e] at h
  exact h

theorem round2_99 : round2 (99 / 100) = 99 / 100 := by
  have h := round2_intCast_div 99
  have e : ((99 : ℤ) : ℚ) / 100 = 99 / 100 := by norm_num
  rw [e] at h
  exact h

/-- Score bounds for C7: with catalog base confidences in `[0, 1]`, every
score `min(0.99, base + 0.08 * overlap)` lies in `[0, 0.99]`. -/
theorem queryScore_bounds (tokens : Finset String) (row : QueryRow)
    (h0 : 0 ≤ row.base_confidence) (h1 : row.base_confidence ≤ 1) :
    0 ≤ queryScore tokens row ∧ queryScore tokens row ≤ 99 / 100 := by
  unfold queryScore
  constructor
  · apply le_min (by norm_num)
    have hov : (0 : ℚ) ≤ (8 / 100) * tagOverlap tokens row := by positivity
    linarith
  · exact min_le_left _ _


theorem mem_scoredQueries (tokens : Finset String) (rows : List QueryRow)
    (p : ℚ × QueryRow) (hp : p ∈ scoredQueries tokens rows) :
    p.2 ∈ rows ∧ 0 < tagOverlap tokens p.2 ∧ p.1 = queryScore tokens p.2 := by
  unfold scoredQueries at hp
  obtain ⟨row, hrow, rfl⟩ := List.mem_map.mp hp
  have hf := List.mem_filter.mp hrow
  exact ⟨hf.1, by simpa using hf.2, rfl⟩

theorem scoredQueries_eq_nil (tokens : Finset String) (rows : List QueryRow)
    (h : scoredQueries tokens rows = []) : ∀ r ∈ rows, tagOverlap tokens r = 0 := by
  intro r hr
  unfold scoredQueries at h
  have hfil := List.map_eq_nil_iff.mp h
  have hnot := List.filter_eq_nil_iff.mp hfil r hr
  simp only [decide_eq_true_eq] at hnot
  omega

/-- Spec of the ranking stage, for any token set: at most 3 results, all
confidences in `[0, 0.99]`, only overlapping entries are scored, and the
zero-overlap fallback returns exactly the first catalog entry at 0.62. -/
theorem rankQueries_spec (tokens : Finset String) (rows : List QueryRow)
    (hbase : ∀ r ∈ rows, 0 ≤ r.base_confidence ∧ r.base_confidence ≤ 1) :
    (rankQueries tokens rows).length ≤ 3 ∧
    (∀ q ∈ rankQueries tokens rows, 0 ≤ q.confidence ∧ q.confidence ≤ 99 / 100) ∧
    (∀ q ∈ rankQueries tokens rows,
      (∃ r ∈ rows, 0 < tagOverlap tokens r ∧ q.query = r.query) ∨
      (∀ r ∈ rows, tagOverlap tokens r = 0)) ∧
    ((∀ r ∈ rows, tagOverlap tokens r = 0) → ∀ r0 rest, rows = r0 :: rest →
      rankQueries tokens rows
        = [{ query := r0.query, confidence := 62 / 100,
             rationale := "Matched tags: " ++ String.intercalate ", " r0.tags }]) := by
  cases hs0 : scoredQueries tokens rows with
  | nil =>
    have hall : ∀ r ∈ rows, tagOverlap tokens r = 0 := scoredQueries_eq_nil tokens rows hs0
    cases hrows : rows with
    | nil =>
      subst hrows
      have hout : rankQueries tokens [] = [] := by
        unfold rankQueries topQueries
        rw [hs0]
        rfl
      refine ⟨by rw [hout]; simp, by rw [hout]; simp, by rw [hout]; simp, ?_⟩
      intro _ r0 rest h
      cases h
    | cons r0 rest =>
      subst hrows
      have htop : topQueries tokens (r0 :: rest) = [((62 / 100 : ℚ), r0)] := by
        unfold topQueries
        rw [hs0]
        rfl
      have hout : rankQueries tokens (r0 :: rest)
          = [{ query := r0.query, confidence := round2 (62 / 100),
               rationale := "Matched tags: " ++ String.intercalate ", " r0.tags }] := by
        unfold rankQueries
        rw [htop]
        rfl
      refine ⟨by rw [hout]; simp, ?_, ?_, ?_⟩
      · intro q hq
        rw [hout] at hq
        obtain rfl := List.mem_singleton.mp hq
        rw [round2_62]
        constructor <;> norm_num
      · intro q _
        exact Or.inr hall
      · intro _ r0x restx heq
        obtain ⟨rfl, rfl⟩ : r0x = r0 ∧ restx = rest := by
          injection heq with h1 h2
          exact ⟨h1.symm, h2.symm⟩
        rw [hout, round2_62]
  | cons p0 ps =>
    have htop : topQueries tokens rows
        = (List.insertionSort (fun x y : ℚ × QueryRow => y.1 < x.1) (p0 :: ps)).take 3 := by
      unfold topQueries
      rw [hs0]
      rfl
    have hout : rankQueries tokens rows
        = ((List.insertionSort (fun x y : ℚ × QueryRow => y.1 < x.1) (p0 :: ps)).take 3).map
          (fun item =>
            { query := item.2.query
              confidence := round2 item.1
              rationale := "Matched tags: " ++ String.intercalate ", " item.2.tags }) := by
      unfold rankQueries
      rw [htop]
    have htake : ∀ p ∈ (List.insertionSort (fun x y : ℚ × QueryRow => y.1 < x.1)
        (p0 :: ps)).take 3, p ∈ scoredQueries tokens rows := by
      intro p hp
      rw [hs0]
      exact (List.perm_insertionSort _ _).subset (List.mem_of_mem_take hp)
    refine ⟨?_, ?_, ?_, ?_⟩
    · rw [hout]
      simp only [List.length_map, List.length_take]
      omega
    · intro q hq
      rw [hout] at hq
      obtain ⟨p, hp, rfl⟩ := List.mem_map.mp hq
      obtain ⟨hrow, hov, hsc⟩ := mem_scoredQueries tokens rows p (htake p hp)
      obtain ⟨h0, h1⟩ := hbase p.2 hrow
      obtain ⟨hb0, hb1⟩ := queryScore_bounds tokens p.2 h0 h1
      constructor
      · have hm := round2_mono hb0
        rw [round2_zero] at hm
        simpa [hsc] using hm
      · have hm := round2_mono hb1
        rw [round2_99] at hm
        simpa [hsc] using hm
    · intro q hq
      rw [hout] at hq
      obtain ⟨p, hp, rfl⟩ := List.mem_map.mp hq
      obtain ⟨hrow, hov, _⟩ := mem_scoredQueries tokens rows p (htake p hp)
      exact Or.inl ⟨p.2, hrow, hov, rfl⟩
    · intro hall r0 rest heq
      have hp0 : p0 ∈ scoredQueries tokens rows := by
        rw [hs0]
        exact List.mem_cons_self _ _
      obtain ⟨hrow, hov, _⟩ := mem_scoredQueries tokens rows p0 hp0
      have := hall p0.2 hrow
      omega

/-- C7: for any extracted mapping, missing-document list, pending-form list
and catalog with base confidences in `[0, 1]`, the query predictor returns at
most 3 items with confidences in `[0, 0.99]`; zero-overlap entries are never
scored, and when nothing overlaps a non-empty catalog, exactly the first
entry is returned at confidence 0.62. -/
theorem predict_queries_top3_bounds_fallback (e : Extracted) (missing : List String)
    (pending : List PendingFormItem) (rows : List QueryRow)
    (hbase : ∀ r ∈ rows, 0 ≤ r.base_confidence ∧ r.base_confidence ≤ 1) :
    (predict_credit_queries e missing pending rows).length ≤ 3 ∧
    (∀ q ∈ predict_credit_queries e missing pending rows,
      0 ≤ q.confidence ∧ q.confidence ≤ 99 / 100) ∧
    (∀ q ∈ predict_credit_queries e missing pending rows,
      (∃ r ∈ rows, 0 < tagOverlap (queryTokens e missing pending) r ∧ q.query = r.query) ∨
      (∀ r ∈ rows, tagOverlap (queryTokens e missing pending) r = 0)) ∧
    ((∀ r ∈ rows, tagOverlap (queryTokens e missing pending) r = 0) →
      ∀ r0 rest, rows = r0 :: rest →
        predict_credit_queries e missing pending rows
          = [{ query := r0.query, confidence := 62 / 100,
               rationale := "Matched tags: " ++ String.intercalate ", " r0.tags }]) :=
  rankQueries_spec (queryTokens e missing pending) rows hbase

def c7Row : QueryRow :=
  { query := "Why is the credit score low?", tags := ["low_credit"],
    base_confidence := 1 / 2 }

theorem predict_queries_top3_bounds_fallback_witness :
    (∀ r ∈ [c7Row], 0 ≤ r.base_confidence ∧ r.base_confidence ≤ 1) ∧
    ((predict_credit_queries eZero [] [] [c7Row]).length ≤ 3 ∧
      (∀ q ∈ predict_credit_queries eZero [] [] [c7Row],
        0 ≤ q.confidence ∧ q.confidence ≤ 99 / 100) ∧
      (∀ q ∈ predict_credit_queries eZero [] [] [c7Row],
        (∃ r ∈ [c7Row], 0 < tagOverlap (queryTokens eZero [] []) r ∧ q.query = r.query) ∨
        (∀ r ∈ [c7Row], tagOverlap (queryTokens eZero [] []) r = 0)) ∧
      ((∀ r ∈ [c7Row], tagOverlap (queryTokens eZero [] []) r = 0) →
        ∀ r0 rest, [c7Row] = r0 :: rest →
          predict_credit_queries eZero [] [] [c7Row]
            = [{ query := r0.query, confidence := 62 / 100,
                 rationale := "Matched tags: " ++ String.intercalate ", " r0.tags }])) :=
  have hb : ∀ r ∈ [c7Row], 0 ≤ r.base_confidence ∧ r.base_confidence ≤ 1 := by
    intro r hr
    rw [List.mem_singleton] at hr
    subst hr
    constructor <;> norm_num [c7Row]
  ⟨hb, predict_queries_top3_bounds_fallback eZero [] [] [c7Row] hb⟩
